import Mathlib

/-!
Verification of the finance data-aggregation services:
`FinnhubService` (src/tools/finance/finnhub_service.py) and
`TushareRealtimeService` (src/tools/finance/tushare_realtime_service.py).

The Python dictionaries returned by every operation are modelled by the
`Envelope` structure below; a dictionary key that may be absent becomes an
`Option` field.  Upstream providers (finnhub / tushare endpoints) are
black boxes in the source, so each one is a parameter of the embedded
function: `Option`/`Except` values stand for "returned data", "returned
None / empty frame" and "raised an exception".  Wall-clock strings
(`datetime.now()` renderings) are passed in as parameters.
-/

/-- A metadata value: the Python metadata dictionaries hold strings,
integers, booleans and lists of strings. -/
inductive MetaVal where
  | str (s : String)
  | int (n : Int)
  | bool (b : Bool)
  | strList (l : List String)
  deriving DecidableEq, Repr

/-- A metadata mapping, as an association list (first binding wins on
lookup; the Python call sites never produce duplicate keys). -/
abbrev Metadata := List (String × MetaVal)

/-- The uniform response dictionary.  A field is `none` when the Python
dictionary does not carry that key. -/
structure Envelope (α : Type) where
  success : Bool
  found : Option Bool := none
  data : Option α := none
  error : Option String := none
  metadata : Option Metadata := none
  deriving DecidableEq, Repr

/-- The bare failure dictionary the tushare service returns:
`\x7b"success": False, "error": msg\x7d` — note it has no metadata and no
data key. -/
def failEnv {α : Type} (msg : String) : Envelope α :=
  { success := false, error := some msg }

namespace Finnhub

/-- `FinnhubService._format_response` (finnhub_service.py:74-93).
`truthy` is Python truthiness of the payload (used for the `found` flag);
`now` is the rendered `datetime.now()` string.  The call sites never pass
a `query_time` key in `meta`, so prepending it matches the Python dict
merge `\x7b"query_time": ..., **meta\x7d`. -/
def formatResponse {α : Type} (truthy : α → Bool) (data : Option α)
    (meta : Metadata) (now : String) : Envelope α :=
  match data with
  | none =>
      { success := false,
        error := some "No data returned or API error",
        metadata := some (("query_time", .str now) :: meta) }
  | some d =>
      { success := true,
        found := some (truthy d),
        data := some (d),
        metadata := some (("query_time", .str now) :: meta) }

/-- `FinnhubService._get_all_stock_info` (finnhub_service.py:199-246),
abstracted over the five awaited category envelopes (each category
fetcher is itself a black-box composition of upstream calls).  A category
key is inserted into `raw_data` exactly when that category's envelope has
a truthy `success`; the value stored is the category's `data` field
(which may be absent, i.e. `none`).  The merged map then goes through
`_format_response`, whose truthiness test for a dict is nonemptiness. -/
def getAllStockInfo {γ : Type} (profileRes marketRes financialRes analysisRes sentimentRes : Envelope γ)
    (symbol period generatedAt now : String) : Envelope (List (String × Option γ)) :=
  let rawData : List (String × Option γ) :=
    (if profileRes.success then [("company_profile", profileRes.data)] else []) ++
    (if marketRes.success then [("market_data", marketRes.data)] else []) ++
    (if financialRes.success then [("financials", financialRes.data)] else []) ++
    (if analysisRes.success then [("analysis", analysisRes.data)] else []) ++
    (if sentimentRes.success then [("sentiment", sentimentRes.data)] else [])
  formatResponse (fun l => !l.isEmpty) (some rawData)
    [("symbol", .str symbol), ("period", .str period), ("generated_at", .str generatedAt)]
    now

end Finnhub

/-- C1: for every symbol/date range, the merged output of the aggregator
`_get_all_stock_info` contains a category key iff that category's fetcher
reported `success == true`; and even when all five categories fail, the
overall envelope is still `success == true` with an empty merged map. -/
theorem c1_aggregate_category_iff_success {γ : Type}
    (pr mr fr ar sr : Envelope γ) (symbol period generatedAt now : String) :
    let out := Finnhub.getAllStockInfo pr mr fr ar sr symbol period generatedAt now
    let keys := (out.data.getD []).map Prod.fst
    out.success = true ∧
    (("company_profile" ∈ keys) ↔ pr.success = true) ∧
    (("market_data" ∈ keys) ↔ mr.success = true) ∧
    (("financials" ∈ keys) ↔ fr.success = true) ∧
    (("analysis" ∈ keys) ↔ ar.success = true) ∧
    (("sentiment" ∈ keys) ↔ sr.success = true) ∧
    ((pr.success = false ∧ mr.success = false ∧ fr.success = false ∧
      ar.success = false ∧ sr.success = false) → out.data = some []) := by
  cases hp : pr.success <;> cases hm : mr.success <;> cases hf : fr.success <;>
    cases ha : ar.success <;> cases hs : sr.success <;>
      simp [Finnhub.getAllStockInfo, Finnhub.formatResponse, hp, hm, hf, ha, hs]

/-- C1 witness: concrete instantiation with all five category envelopes
failed — the merged data is the empty map. -/
theorem c1_aggregate_category_iff_success_witness :
    (Finnhub.getAllStockInfo (failEnv "e" : Envelope Unit) (failEnv "e") (failEnv "e")
      (failEnv "e") (failEnv "e") "AAPL" "2024-01-01 to 2024-02-01" "g" "t").data = some [] :=
  (c1_aggregate_category_iff_success (failEnv "e") (failEnv "e") (failEnv "e")
      (failEnv "e") (failEnv "e") "AAPL" "2024-01-01 to 2024-02-01" "g" "t").2.2.2.2.2.2
    ⟨rfl, rfl, rfl, rfl, rfl⟩

namespace Tushare

/-- A row of the `stock_basic` directory (fields `ts_code,symbol,name`,
see tushare_realtime_service.py:115). -/
structure StockEntry where
  ts_code : String
  symbol : String
  name : String
  deriving DecidableEq, Repr

/-- The payload stored under the `data` key of a cache file.
`missing` covers an absent or null `data` key; `malformed` covers a
payload on which `pd.DataFrame(cached_data)` raises (caught and treated
as a miss at tushare_realtime_service.py:105-108); `records` is a list of
directory rows as written by `_save_cache('stock_basic', df.to_dict('records'))`. -/
inductive CachedPayload where
  | missing
  | malformed
  | records (l : List StockEntry)
  deriving DecidableEq, Repr

/-- The on-disk state of the single cache file `stock_basic.json`.
`absent` — file does not exist; `corrupt` — `json.load` raises (caught at
tushare_realtime_service.py:79-80); `file` — a well-formed
`\x7b"timestamp": t, "data": payload\x7d` document. -/
inductive CacheDisk where
  | absent
  | corrupt
  | file (timestamp : Int) (payload : CachedPayload)
  deriving DecidableEq, Repr

/-- Upstream-call counters for one service invocation, one per tushare
endpoint the service reaches. -/
structure Calls where
  basic : Nat := 0
  rtMin : Nat := 0
  quote : Nat := 0
  tick : Nat := 0
  list : Nat := 0
  deriving DecidableEq, Repr

/-- `cache_expire_hours * 3600` with `cache_expire_hours = 24`
(tushare_realtime_service.py:52,76). -/
def cacheExpireSeconds : Int := 24 * 3600

/-- `TushareRealtimeService._load_cache` (tushare_realtime_service.py:68-81)
for the fixed key `stock_basic`, at wall-clock `now` (seconds).  Every
miss-like outcome (no file, unreadable JSON, stale record) is the Python
`None` return, which behaves exactly like a `missing` payload at the one
call site, so it is collapsed into `missing`. -/
def loadCache (disk : CacheDisk) (now : Int) : CachedPayload :=
  match disk with
  | .absent => .missing
  | .corrupt => .missing
  | .file t payload => if now - t < cacheExpireSeconds then payload else .missing

/-- `TushareRealtimeService._get_stock_basic` (tushare_realtime_service.py:97-124).
`proInit` — whether `self.pro` was initialized (token present and
`ts.pro_api` succeeded); `api` — the outcome of the upstream
`pro.stock_basic(...)` call (`none`: the call raised or returned `None`;
`some []`: an empty frame; `some l`: a frame with rows).  Returns the
result, the number of upstream `stock_basic` calls made, and the new disk
state.  A truthy, well-formed, fresh cached payload is returned without
any upstream call; every other cache outcome falls through to one
upstream call, whose non-empty result is persisted with the current
timestamp. -/
def getStockBasic (proInit : Bool) (disk : CacheDisk) (now : Int)
    (api : Option (List StockEntry)) : Option (List StockEntry) × Nat × CacheDisk :=
  if !proInit then (none, 0, disk)
  else
    match loadCache disk now with
    | .records (e :: l) => (some (e :: l), 0, disk)
    | _ =>
      match api with
      | some (e :: l) => (some (e :: l), 1, .file now (.records (e :: l)))
      | some [] => (none, 1, disk)
      | none => (none, 1, disk)

/-- Decidable test: the cache holds a fresh, well-formed, non-empty
directory snapshot (the only situation in which `_get_stock_basic` is
served from cache). -/
def freshNonempty (disk : CacheDisk) (now : Int) : Bool :=
  match disk with
  | .file t (.records (_ :: _)) => now - t < cacheExpireSeconds
  | _ => false

/-- `TushareRealtimeService._get_code_by_name`'s dictionary-building loop
(tushare_realtime_service.py:126-138), given the directory frame returned
by `_get_stock_basic` (`none` — no frame).  Mirrors the Python loop: for
each requested name in order, the first directory row with that exact
`name` contributes a `name → ts_code` binding; re-assigning an existing
dict key is a no-op because the looked-up code is deterministic per name. -/
def resolveLoop (l : List StockEntry) (acc : List (String × String)) :
    List String → List (String × String)
  | [] => acc
  | n :: ns =>
    match l.find? (fun e => e.name == n) with
    | some e =>
        resolveLoop l (if (acc.lookup n).isSome then acc else acc ++ [(n, e.ts_code)]) ns
    | none => resolveLoop l acc ns

/-- `TushareRealtimeService._get_code_by_name` (tushare_realtime_service.py:126-138)
minus the `_get_stock_basic` call, which the callers of this definition
perform explicitly (so that its upstream calls can be counted).  A `none`
or empty frame yields the empty mapping. -/
def resolveCodes (dir : Option (List StockEntry)) (names : List String) :
    List (String × String) :=
  match dir with
  | none => []
  | some [] => []
  | some l => resolveLoop l [] names

/-- `TushareRealtimeService._get_name_by_code`'s loop
(tushare_realtime_service.py:140-152): the symmetric `code → name` lookup. -/
def namesLoop (l : List StockEntry) (acc : List (String × String)) :
    List String → List (String × String)
  | [] => acc
  | c :: cs =>
    match l.find? (fun e => e.ts_code == c) with
    | some e =>
        namesLoop l (if (acc.lookup c).isSome then acc else acc ++ [(c, e.name)]) cs
    | none => namesLoop l acc cs

/-- `TushareRealtimeService._get_name_by_code` (tushare_realtime_service.py:140-152),
including its `_get_stock_basic` call (with upstream-call accounting). -/
def getNamesByCodes (proInit : Bool) (disk : CacheDisk) (now : Int)
    (api : Option (List StockEntry)) (codes : List String) :
    List (String × String) × Nat × CacheDisk :=
  let (dfOpt, b, disk') := getStockBasic proInit disk now api
  match dfOpt with
  | none => ([], b, disk')
  | some [] => ([], b, disk')
  | some l => (namesLoop l [] codes, b, disk')

end Tushare

namespace Tushare

/-- `(l.lookup a).isSome` says exactly that `a` is among the keys. -/
theorem lookup_isSome_iff_mem_keys {β : Type} (l : List (String × β)) (a : String) :
    (l.lookup a).isSome = true ↔ a ∈ l.map Prod.fst := by
  induction l with
  | nil => simp [List.lookup]
  | cons p l ih =>
    obtain ⟨x, y⟩ := p
    by_cases h : a = x
    · subst h; simp [List.lookup]
    · have hbeq : (a == x) = false := beq_false_of_ne h
      simp [List.lookup, hbeq, ih, h]

/-- A name is a key of the mapping built by `resolveLoop` iff it was
already a key of the accumulator, or it occurs in the remaining names and
some directory row carries exactly that name. -/
theorem mem_keys_resolveLoop (l : List StockEntry) (ns : List String)
    (acc : List (String × String)) (n : String) :
    n ∈ (resolveLoop l acc ns).map Prod.fst ↔
      n ∈ acc.map Prod.fst ∨ (n ∈ ns ∧ ∃ e ∈ l, e.name = n) := by
  induction ns generalizing acc with
  | nil => simp [resolveLoop]
  | cons m ns ih =>
    cases hfind : l.find? (fun e => e.name == m) with
    | none =>
      have hBnE : n = m → ¬ ∃ e ∈ l, e.name = n := by
        rintro rfl ⟨e, hel, hname⟩
        have := List.find?_eq_none.mp hfind e hel
        simp [hname] at this
      simp only [resolveLoop, hfind, ih, List.mem_cons]
      constructor
      · rintro (h | ⟨hn, he⟩)
        · exact Or.inl h
        · exact Or.inr ⟨Or.inr hn, he⟩
      · rintro (h | ⟨hn, he⟩)
        · exact Or.inl h
        · rcases hn with rfl | hn
          · exact absurd he (hBnE rfl)
          · exact Or.inr ⟨hn, he⟩
    | some e =>
      have hel : e ∈ l := List.mem_of_find?_eq_some hfind
      have hname : e.name = m := by simpa using List.find?_some hfind
      have hBE : n = m → ∃ x ∈ l, x.name = n := by
        intro h
        exact ⟨e, hel, by rw [h]; exact hname⟩
      simp only [resolveLoop, hfind, ih, List.mem_cons]
      by_cases hmem : (acc.lookup m).isSome = true
      · rw [if_pos hmem]
        have hBA : n = m → n ∈ acc.map Prod.fst := by
          intro h
          rw [h]
          exact (lookup_isSome_iff_mem_keys acc m).mp hmem
        constructor
        · rintro (h | ⟨hn, he⟩)
          · exact Or.inl h
          · exact Or.inr ⟨Or.inr hn, he⟩
        · rintro (h | ⟨hn, he⟩)
          · exact Or.inl h
          · rcases hn with rfl | hn
            · exact Or.inl (hBA rfl)
            · exact Or.inr ⟨hn, he⟩
      · rw [if_neg hmem]
        simp only [List.map_append, List.map_cons, List.map_nil, List.mem_append,
          List.mem_cons, List.not_mem_nil, or_false]
        constructor
        · rintro ((h | rfl) | ⟨hn, he⟩)
          · exact Or.inl h
          · exact Or.inr ⟨Or.inl rfl, hBE rfl⟩
          · exact Or.inr ⟨Or.inr hn, he⟩
        · rintro (h | ⟨hn, he⟩)
          · exact Or.inl (Or.inl h)
          · rcases hn with rfl | hn
            · exact Or.inl (Or.inr rfl)
            · exact Or.inr ⟨hn, he⟩

end Tushare

/-- C8: for every directory state and every sequence of names,
`_get_code_by_name` returns (without raising — the embedding is a total
function) a mapping whose keys are a subset of the input names, where a
name is a key exactly when it has an exact, case-sensitive match in the
directory; unmatched names are silently omitted. -/
theorem c8_resolve_codes_keys (dir : Option (List Tushare.StockEntry))
    (names : List String) (n : String) :
    (n ∈ (Tushare.resolveCodes dir names).map Prod.fst ↔
      (n ∈ names ∧ ∃ e ∈ dir.getD [], e.name = n)) ∧
    ((Tushare.resolveCodes dir names).map Prod.fst ⊆ names) := by
  have key : ∀ m : String, m ∈ (Tushare.resolveCodes dir names).map Prod.fst ↔
      (m ∈ names ∧ ∃ e ∈ dir.getD [], e.name = m) := by
    intro m
    cases dir with
    | none => simp [Tushare.resolveCodes]
    | some l =>
      cases l with
      | nil => simp [Tushare.resolveCodes]
      | cons e t =>
        simpa [Tushare.resolveCodes] using
          Tushare.mem_keys_resolveLoop (e :: t) names [] m
  exact ⟨key n, fun m hm => ((key m).mp hm).1⟩

/-- C8 witness: the spec's sample scenario — a directory holding only
Pudong Bank resolves `["Pudong Bank", "Unknown Co"]` to a mapping whose
keys contain "Pudong Bank" and omit "Unknown Co". -/
theorem c8_resolve_codes_keys_witness :
    "Pudong Bank" ∈ (Tushare.resolveCodes
      (some [⟨"600000.SH", "600000", "Pudong Bank"⟩])
      ["Pudong Bank", "Unknown Co"]).map Prod.fst ∧
    "Unknown Co" ∉ (Tushare.resolveCodes
      (some [⟨"600000.SH", "600000", "Pudong Bank"⟩])
      ["Pudong Bank", "Unknown Co"]).map Prod.fst :=
  ⟨((c8_resolve_codes_keys (some [⟨"600000.SH", "600000", "Pudong Bank"⟩])
      ["Pudong Bank", "Unknown Co"] "Pudong Bank").1).mpr (by decide),
   fun h => absurd (((c8_resolve_codes_keys (some [⟨"600000.SH", "600000", "Pudong Bank"⟩])
      ["Pudong Bank", "Unknown Co"] "Unknown Co").1).mp h) (by decide)⟩

/-- C3 (amended): with the upstream client initialized, `_get_stock_basic`
returns a fresh, well-formed, non-empty cached snapshot without touching
upstream; in every other cache state it makes the upstream call, persists
a non-empty result under the fixed cache key with the current timestamp
and returns it; and when the upstream call fails (raises or yields an
empty frame) it returns `None` — it does NOT fall back to a stale
previous snapshot. -/
theorem c3_directory_fetch_amended (disk : Tushare.CacheDisk) (now : Int)
    (api : Option (List Tushare.StockEntry)) :
    (∀ t l, disk = .file t (.records l) → l ≠ [] → now - t < Tushare.cacheExpireSeconds →
      Tushare.getStockBasic true disk now api = (some l, 0, disk)) ∧
    (Tushare.freshNonempty disk now = false →
      ((∀ l, api = some l → l ≠ [] →
          Tushare.getStockBasic true disk now api = (some l, 1, .file now (.records l))) ∧
       ((api = none ∨ api = some []) →
          Tushare.getStockBasic true disk now api = (none, 1, disk)))) := by
  constructor
  · rintro t l rfl hl hfresh
    cases l with
    | nil => exact absurd rfl hl
    | cons e l =>
      simp [Tushare.getStockBasic, Tushare.loadCache, if_pos hfresh]
  · intro hstale
    have hmiss : ∀ e l, Tushare.loadCache disk now ≠ .records (e :: l) := by
      intro e l hload
      cases disk with
      | absent => simp [Tushare.loadCache] at hload
      | corrupt => simp [Tushare.loadCache] at hload
      | file t p =>
        simp only [Tushare.loadCache] at hload
        by_cases ht : now - t < Tushare.cacheExpireSeconds
        · rw [if_pos ht] at hload
          subst hload
          simp [Tushare.freshNonempty, ht] at hstale
        · rw [if_neg ht] at hload
          exact absurd hload (by simp)
    constructor
    · rintro l rfl hl
      cases l with
      | nil => exact absurd rfl hl
      | cons e l =>
        cases hload : Tushare.loadCache disk now with
        | missing => simp [Tushare.getStockBasic, hload]
        | malformed => simp [Tushare.getStockBasic, hload]
        | records r =>
          cases r with
          | nil => simp [Tushare.getStockBasic, hload]
          | cons x xs => exact absurd hload (hmiss x xs)
    · rintro (rfl | rfl) <;>
      · cases hload : Tushare.loadCache disk now with
        | missing => simp [Tushare.getStockBasic, hload]
        | malformed => simp [Tushare.getStockBasic, hload]
        | records r =>
          cases r with
          | nil => simp [Tushare.getStockBasic, hload]
          | cons x xs => exact absurd hload (hmiss x xs)

/-- C3 witness: concrete runs of all three amended branches (cache hit,
successful refetch with persistence, failed refetch). -/
theorem c3_directory_fetch_amended_witness :
    Tushare.getStockBasic true (.file 0 (.records [⟨"600000.SH", "600000", "PFB"⟩])) 100
        (some []) =
      (some [⟨"600000.SH", "600000", "PFB"⟩], 0,
        .file 0 (.records [⟨"600000.SH", "600000", "PFB"⟩])) ∧
    Tushare.getStockBasic true .absent 100 (some [⟨"600000.SH", "600000", "PFB"⟩]) =
      (some [⟨"600000.SH", "600000", "PFB"⟩], 1,
        .file 100 (.records [⟨"600000.SH", "600000", "PFB"⟩])) ∧
    Tushare.getStockBasic true .absent 100 none = (none, 1, .absent) :=
  ⟨(c3_directory_fetch_amended (.file 0 (.records [⟨"600000.SH", "600000", "PFB"⟩])) 100
      (some [])).1 0 [⟨"600000.SH", "600000", "PFB"⟩] rfl (by decide) (by decide),
   ((c3_directory_fetch_amended .absent 100 (some [⟨"600000.SH", "600000", "PFB"⟩])).2
      (by decide)).1 [⟨"600000.SH", "600000", "PFB"⟩] rfl (by decide),
   ((c3_directory_fetch_amended .absent 100 none).2 (by decide)).2 (Or.inl rfl)⟩

/-- C3 counterexample: the claim as stated is false on the code.  With a
stale snapshot on disk and a failing upstream call, `_get_stock_basic`
returns `None` instead of the previous snapshot; and with the client
uninitialized it returns `None` even though a fresh snapshot is cached. -/
theorem c3_directory_fetch_counterexample :
    (Tushare.getStockBasic true
        (.file 0 (.records [⟨"600000.SH", "600000", "PFB"⟩])) 100000 none).1 = none ∧
    (Tushare.getStockBasic false
        (.file 0 (.records [⟨"600000.SH", "600000", "PFB"⟩])) 10
        (some [⟨"600000.SH", "600000", "PFB"⟩])).1 = none := by
  decide

/-- C4 (amended): a directory fetch whose cached record is fresh,
well-formed and non-empty makes zero upstream calls; with the client
initialized, any other cache state (stale, absent, corrupt, empty or
malformed payload) makes exactly one upstream call.  The original claim
fails both for fresh-but-empty payloads and for an uninitialized client. -/
theorem c4_cache_window_amended (proInit : Bool) (disk : Tushare.CacheDisk) (now : Int)
    (api : Option (List Tushare.StockEntry)) :
    (Tushare.freshNonempty disk now = true →
      (Tushare.getStockBasic proInit disk now api).2.1 = 0) ∧
    (proInit = true → Tushare.freshNonempty disk now = false →
      (Tushare.getStockBasic proInit disk now api).2.1 = 1) := by
  cases proInit with
  | false =>
    refine ⟨fun _ => by simp [Tushare.getStockBasic], fun h => absurd h (by simp)⟩
  | true =>
    constructor
    · intro hfresh
      cases disk with
      | absent => simp [Tushare.freshNonempty] at hfresh
      | corrupt => simp [Tushare.freshNonempty] at hfresh
      | file t p =>
        cases p with
        | missing => simp [Tushare.freshNonempty] at hfresh
        | malformed => simp [Tushare.freshNonempty] at hfresh
        | records r =>
          cases r with
          | nil => simp [Tushare.freshNonempty] at hfresh
          | cons e l =>
            have ht : now - t < Tushare.cacheExpireSeconds := by
              simpa [Tushare.freshNonempty] using hfresh
            simp [Tushare.getStockBasic, Tushare.loadCache, if_pos ht]
    · intro _ hstale
      have hmiss : ∀ e l, Tushare.loadCache disk now ≠ .records (e :: l) := by
        intro e l hload
        cases disk with
        | absent => simp [Tushare.loadCache] at hload
        | corrupt => simp [Tushare.loadCache] at hload
        | file t p =>
          simp only [Tushare.loadCache] at hload
          by_cases ht : now - t < Tushare.cacheExpireSeconds
          · rw [if_pos ht] at hload
            subst hload
            simp [Tushare.freshNonempty, ht] at hstale
          · rw [if_neg ht] at hload
            exact absurd hload (by simp)
      cases hload : Tushare.loadCache disk now with
      | missing => cases api with
        | none => simp [Tushare.getStockBasic, hload]
        | some l => cases l <;> simp [Tushare.getStockBasic, hload]
      | malformed => cases api with
        | none => simp [Tushare.getStockBasic, hload]
        | some l => cases l <;> simp [Tushare.getStockBasic, hload]
      | records r =>
        cases r with
        | nil => cases api with
          | none => simp [Tushare.getStockBasic, hload]
          | some l => cases l <;> simp [Tushare.getStockBasic, hload]
        | cons x xs => exact absurd hload (hmiss x xs)

/-- C4 witness: a fresh non-empty snapshot is served with zero upstream
calls; an absent cache file costs exactly one upstream call. -/
theorem c4_cache_window_amended_witness :
    (Tushare.getStockBasic true
        (.file 0 (.records [⟨"600000.SH", "600000", "PFB"⟩])) 100 none).2.1 = 0 ∧
    (Tushare.getStockBasic true .absent 100 none).2.1 = 1 :=
  ⟨(c4_cache_window_amended true (.file 0 (.records [⟨"600000.SH", "600000", "PFB"⟩]))
      100 none).1 (by decide),
   (c4_cache_window_amended true .absent 100 none).2 rfl (by decide)⟩

/-- C4 counterexample: the claim as stated is false on the code.  A fresh
cache record whose payload is the empty list still triggers an upstream
call (the Python truthiness test rejects it), and a stale cache with the
client uninitialized triggers zero upstream calls instead of one. -/
theorem c4_cache_window_counterexample :
    (Tushare.getStockBasic true (.file 0 (.records [])) 0
        (some [⟨"600000.SH", "600000", "PFB"⟩])).2.1 = 1 ∧
    (Tushare.getStockBasic false (.file 0 (.records [⟨"600000.SH", "600000", "PFB"⟩]))
        100000 (some [⟨"600000.SH", "600000", "PFB"⟩])).2.1 = 0 := by
  decide

namespace Tushare

/-- Python `str.split(',')` on the character list (every comma is a
separator; `"".split(',')` is `[""]`). -/
def splitCommas : List Char → List (List Char)
  | [] => [[]]
  | c :: cs =>
    if c = ',' then [] :: splitCommas cs
    else
      match splitCommas cs with
      | [] => [[c]]
      | w :: ws => (c :: w) :: ws

/-- Python `str.strip()`: drop leading and trailing whitespace. -/
def trimChars (l : List Char) : List Char :=
  ((l.dropWhile Char.isWhitespace).reverse.dropWhile Char.isWhitespace).reverse

/-- Python `str.strip()` on a string. -/
def trimStr (s : String) : String := String.mk (trimChars s.data)

/-- `[n.strip() for n in stock_names.split(',') if n.strip()]`
(tushare_realtime_service.py:260,398). -/
def parseNames (s : String) : List String :=
  ((splitCommas s.data).map (fun l => String.mk (trimChars l))).filter (fun n => n ≠ "")

/-- Append one key to a result's metadata dictionary
(`result["metadata"][key] = value`); only ever applied to success
envelopes, which all carry a metadata dictionary. -/
def addMeta {α : Type} (e : Envelope α) (k : String) (v : MetaVal) : Envelope α :=
  { e with metadata := some ((e.metadata.getD []) ++ [(k, v)]) }

/-- `TushareRealtimeService._get_realtime_quote` (tushare_realtime_service.py:279-352).
`tsAvail` — whether the `tushare` module imported; `api` — outcome of the
upstream `ts.realtime_quote` call (`.error e`: the call raised, with
`str(e) = e`; `.ok []`: empty or `None` frame; `.ok rows`: data rows,
already taken through the per-field null-coalescing record build, which
itself cannot fail).  Returns the envelope and the number of
`realtime_quote` upstream calls. -/
def getRealtimeQuote {α : Type} (tsAvail : Bool) (api : Except String (List α))
    (tsCodes src nowStr : String) : Envelope (List α) × Nat :=
  if !tsAvail then (failEnv "Tushare not available", 0)
  else
    match api with
    | .error e => (failEnv e, 1)
    | .ok [] =>
        ({ success := true, data := some [],
           metadata := some [("ts_codes", .str tsCodes), ("src", .str src),
             ("count", .int 0),
             ("message", .str "No data returned (market may be closed)")] }, 1)
    | .ok (r :: rs) =>
        ({ success := true, data := some (r :: rs),
           metadata := some [("ts_codes", .str tsCodes), ("src", .str src),
             ("count", .int (r :: rs).length), ("query_time", .str nowStr)] }, 1)

/-- `TushareRealtimeService.get_realtime_by_name` (tushare_realtime_service.py:354-420):
parse and validate the names, resolve them to codes through the directory
cache, fetch quotes, and re-attach unresolved names into the metadata of
a successful result. -/
def getRealtimeByName {α : Type} (proInit tsAvail : Bool) (disk : CacheDisk) (now : Int)
    (stockApi : Option (List StockEntry)) (quoteApi : Except String (List α))
    (stockNames nowStr : String) : Envelope (List α) × Calls × CacheDisk :=
  let names := parseNames stockNames
  if names.isEmpty then (failEnv "No stock names provided", {}, disk)
  else if names.length > 50 then (failEnv "Maximum 50 stocks per request", {}, disk)
  else
    let res := getStockBasic proInit disk now stockApi
    let nameMap := resolveCodes res.1 names
    if nameMap.isEmpty then
      (failEnv ("Could not find codes for: " ++ stockNames), { basic := res.2.1 }, res.2.2)
    else
      let notFound := names.filter (fun n => (nameMap.lookup n).isNone)
      let tsCodes := String.intercalate "," (nameMap.map Prod.snd)
      let q := getRealtimeQuote tsAvail quoteApi tsCodes "sina" nowStr
      let env :=
        if !notFound.isEmpty && q.1.success then addMeta q.1 "not_found_names" (.strList notFound)
        else q.1
      (env, { basic := res.2.1, quote := q.2 }, res.2.2)

end Tushare

/-- C7: for every input parsing to more than 50 names, `get_realtime_by_name`
fails with the validation error and issues zero upstream calls — no
directory resolution and no quote fetch. -/
theorem c7_quote_by_name_max_50 {α : Type} (proInit tsAvail : Bool) (disk : Tushare.CacheDisk)
    (now : Int) (stockApi : Option (List Tushare.StockEntry))
    (quoteApi : Except String (List α)) (s nowStr : String)
    (h : 50 < (Tushare.parseNames s).length) :
    Tushare.getRealtimeByName proInit tsAvail disk now stockApi quoteApi s nowStr =
      (failEnv "Maximum 50 stocks per request", {}, disk) := by
  have hne : (Tushare.parseNames s).isEmpty = false := by
    cases hp : Tushare.parseNames s with
    | nil => rw [hp] at h; simp at h
    | cons a l => simp
  simp [Tushare.getRealtimeByName, hne, h]

/-- C7 witness: a concrete request with 51 comma-separated names. -/
theorem c7_quote_by_name_max_50_witness :
    50 < (Tushare.parseNames
      "a,a,a,a,a,a,a,a,a,a,a,a,a,a,a,a,a,a,a,a,a,a,a,a,a,a,a,a,a,a,a,a,a,a,a,a,a,a,a,a,a,a,a,a,a,a,a,a,a,a,a").length ∧
    Tushare.getRealtimeByName true true .absent 0 none (Except.ok ([] : List String))
      "a,a,a,a,a,a,a,a,a,a,a,a,a,a,a,a,a,a,a,a,a,a,a,a,a,a,a,a,a,a,a,a,a,a,a,a,a,a,a,a,a,a,a,a,a,a,a,a,a,a,a" "t" =
      (failEnv "Maximum 50 stocks per request", {}, .absent) :=
  ⟨by decide,
   c7_quote_by_name_max_50 true true .absent 0 none (Except.ok ([] : List String))
     "a,a,a,a,a,a,a,a,a,a,a,a,a,a,a,a,a,a,a,a,a,a,a,a,a,a,a,a,a,a,a,a,a,a,a,a,a,a,a,a,a,a,a,a,a,a,a,a,a,a,a" "t"
     (by decide)⟩

/-- C2 counterexample: the claim as stated is false on the code.  The
validation-failure envelope of the public `get_realtime_by_name` carries
no metadata mapping at all, hence no query timestamp. -/
theorem c2_envelope_metadata_counterexample :
    (Tushare.getRealtimeByName true true .absent 0 none (Except.ok ([] : List String))
      "" "t").1.metadata = none ∧
    (Tushare.getRealtimeByName true true .absent 0 none (Except.ok ([] : List String))
      "" "t").1.success = false := by
  decide

namespace Tushare

/-- `FREQ_OPTIONS` (tushare_realtime_service.py:42). -/
def FREQ_OPTIONS : List String := ["1MIN", "5MIN", "15MIN", "30MIN", "60MIN"]

/-- The message of the `ValueError` raised by `_validate_freq`
(tushare_realtime_service.py:158): Python renders the options list with
single quotes. -/
def invalidFreqMsg (freq : String) : String :=
  "Invalid freq: " ++ freq ++
    ". Must be one of [\x271MIN\x27, \x275MIN\x27, \x2715MIN\x27, \x2730MIN\x27, \x2760MIN\x27]"

/-- Python `str.upper()`, modelled as character-wise ASCII uppercasing
(the two agree on ASCII inputs). -/
def strUpper (s : String) : String := String.mk (s.data.map Char.toUpper)

/-- `TushareRealtimeService._validate_freq` (tushare_realtime_service.py:154-159):
uppercase the input, accept it if the result is in `FREQ_OPTIONS`, else
raise `ValueError` (modelled as `Except.error`). -/
def validateFreq (freq : String) : Except String String :=
  if strUpper freq ∈ FREQ_OPTIONS then .ok (strUpper freq) else .error (invalidFreqMsg freq)

/-- A row of the upstream `rt_min` frame (tushare_realtime_service.py:212-224):
its named fields, each numeric one `none` when `pd.notna` fails. -/
structure MinRow where
  ts_code : String
  time : Option String
  opn : Option ℚ
  close : Option ℚ
  high : Option ℚ
  low : Option ℚ
  vol : Option ℚ
  amount : Option ℚ
  deriving DecidableEq, Repr

/-- The per-row output record built at tushare_realtime_service.py:214-224
(the source key `open` is spelled `opn`: `open` is a Lean keyword). -/
structure MinRec where
  ts_code : String
  name : String
  time : Option String
  opn : Option ℚ
  close : Option ℚ
  high : Option ℚ
  low : Option ℚ
  vol : Option ℚ
  amount : Option ℚ
  deriving DecidableEq, Repr

/-- The record-building loop body of `_get_realtime_minute`
(tushare_realtime_service.py:212-225): enrich each row with
`code_name_map.get(code, "")`. -/
def minRowToRec (nameMap : List (String × String)) (r : MinRow) : MinRec :=
  { ts_code := r.ts_code, name := (nameMap.lookup r.ts_code).getD "",
    time := r.time, opn := r.opn, close := r.close, high := r.high,
    low := r.low, vol := r.vol, amount := r.amount }

/-- `TushareRealtimeService._get_realtime_minute` (tushare_realtime_service.py:161-240).
`rtMinApi` is the outcome of the upstream `pro.rt_min` call.  Frequency
validation happens before the upstream call; the name-enrichment step
re-enters `_get_name_by_code` and hence may make a directory upstream
call of its own. -/
def getRealtimeMinute (proInit : Bool) (disk : CacheDisk) (now : Int)
    (stockApi : Option (List StockEntry)) (rtMinApi : Except String (List MinRow))
    (tsCodes freq nowStr : String) : Envelope (List MinRec) × Calls × CacheDisk :=
  if !proInit then (failEnv "Tushare not initialized", {}, disk)
  else
    match validateFreq freq with
    | .error e => (failEnv e, {}, disk)
    | .ok fr =>
      match rtMinApi with
      | .error e => (failEnv e, { rtMin := 1 }, disk)
      | .ok [] =>
          ({ success := true, data := some [],
             metadata := some [("ts_codes", .str tsCodes), ("freq", .str fr),
               ("count", .int 0),
               ("message", .str "No data returned (market may be closed)")] },
           { rtMin := 1 }, disk)
      | .ok (r :: rs) =>
          let codes := (splitCommas tsCodes.data).map String.mk
          let nm := getNamesByCodes proInit disk now stockApi codes
          let recs := (r :: rs).map (minRowToRec nm.1)
          ({ success := true, data := some recs,
             metadata := some [("ts_codes", .str tsCodes), ("freq", .str fr),
               ("count", .int recs.length), ("query_time", .str nowStr)] },
           { rtMin := 1, basic := nm.2.1 }, nm.2.2)

/-- `TushareRealtimeService._get_minute_by_name` (tushare_realtime_service.py:242-277):
resolve names to codes first (possibly hitting the directory upstream),
then delegate to `_get_realtime_minute`, which validates the frequency. -/
def getMinuteByName (proInit : Bool) (disk : CacheDisk) (now : Int)
    (stockApi : Option (List StockEntry)) (rtMinApi : Except String (List MinRow))
    (stockNames freq nowStr : String) : Envelope (List MinRec) × Calls × CacheDisk :=
  if !proInit then (failEnv "Tushare not initialized", {}, disk)
  else
    let names := parseNames stockNames
    if names.isEmpty then (failEnv "No stock names provided", {}, disk)
    else
      let res := getStockBasic proInit disk now stockApi
      let nameMap := resolveCodes res.1 names
      if nameMap.isEmpty then
        (failEnv ("Could not find codes for: " ++ stockNames), { basic := res.2.1 }, res.2.2)
      else
        let notFound := names.filter (fun n => (nameMap.lookup n).isNone)
        let tsCodes := String.intercalate "," (nameMap.map Prod.snd)
        let m := getRealtimeMinute proInit res.2.2 now stockApi rtMinApi tsCodes freq nowStr
        let env :=
          if !notFound.isEmpty && m.1.success then
            addMeta m.1 "not_found_names" (.strList notFound)
          else m.1
        (env, { basic := res.2.1 + m.2.1.basic, rtMin := m.2.1.rtMin }, m.2.2)

end Tushare

namespace Tushare

/-- Resolving the empty list of names always yields the empty mapping. -/
theorem resolveCodes_nil (dir : Option (List StockEntry)) : resolveCodes dir [] = [] := by
  cases dir with
  | none => rfl
  | some l => cases l <;> rfl

end Tushare

/-- C6 (amended): a minute-bar request with a frequency outside
`FREQ_OPTIONS` returns a failure envelope without raising and without
calling the minute-bar (`rt_min`) or quote upstream endpoints, and —
whenever the preceding name-resolution step produced at least one code —
that envelope is exactly the `Invalid freq` validation error.  The
name-resolution step itself runs before frequency validation and may
issue a directory upstream call (see the counterexample). -/
theorem c6_minute_invalid_freq_amended (proInit : Bool) (disk : Tushare.CacheDisk) (now : Int)
    (stockApi : Option (List Tushare.StockEntry)) (rtMinApi : Except String (List Tushare.MinRow))
    (stockNames freq nowStr : String)
    (hfreq : Tushare.strUpper freq ∉ Tushare.FREQ_OPTIONS) :
    (Tushare.getMinuteByName proInit disk now stockApi rtMinApi stockNames freq nowStr).2.1.rtMin = 0 ∧
    (Tushare.getMinuteByName proInit disk now stockApi rtMinApi stockNames freq nowStr).2.1.quote = 0 ∧
    (Tushare.getMinuteByName proInit disk now stockApi rtMinApi stockNames freq nowStr).1.success = false ∧
    ((Tushare.resolveCodes (Tushare.getStockBasic proInit disk now stockApi).1
        (Tushare.parseNames stockNames)).isEmpty = false →
      (Tushare.getMinuteByName proInit disk now stockApi rtMinApi stockNames freq nowStr).1.error =
        some (Tushare.invalidFreqMsg freq)) := by
  have hval : Tushare.validateFreq freq = .error (Tushare.invalidFreqMsg freq) := by
    simp [Tushare.validateFreq, hfreq]
  cases proInit with
  | false =>
    refine ⟨by simp [Tushare.getMinuteByName, failEnv], by simp [Tushare.getMinuteByName, failEnv],
      by simp [Tushare.getMinuteByName, failEnv], ?_⟩
    intro hmap
    simp [Tushare.getStockBasic, Tushare.resolveCodes] at hmap
  | true =>
    cases hnames : (Tushare.parseNames stockNames).isEmpty with
    | true =>
      have hnil : Tushare.parseNames stockNames = [] := List.isEmpty_iff.mp hnames
      refine ⟨by simp [Tushare.getMinuteByName, hnames, failEnv],
        by simp [Tushare.getMinuteByName, hnames, failEnv],
        by simp [Tushare.getMinuteByName, hnames, failEnv], ?_⟩
      intro hmap
      rw [hnil, Tushare.resolveCodes_nil] at hmap
      simp at hmap
    | false =>
      cases hmap : (Tushare.resolveCodes (Tushare.getStockBasic true disk now stockApi).1
          (Tushare.parseNames stockNames)).isEmpty with
      | true =>
        refine ⟨?_, ?_, ?_, ?_⟩ <;>
          simp [Tushare.getMinuteByName, hnames, hmap, failEnv]
      | false =>
        refine ⟨?_, ?_, ?_, ?_⟩ <;>
          simp [Tushare.getMinuteByName, Tushare.getRealtimeMinute, hnames, hmap, hval, failEnv]

/-- C6 witness: a resolvable name with frequency `2MIN` yields the
`Invalid freq` envelope and zero `rt_min` upstream calls. -/
theorem c6_minute_invalid_freq_amended_witness :
    (Tushare.getMinuteByName true .absent 0 (some [⟨"600000.SH", "600000", "PFB"⟩])
      (.ok []) "PFB" "2MIN" "t").2.1.rtMin = 0 ∧
    (Tushare.getMinuteByName true .absent 0 (some [⟨"600000.SH", "600000", "PFB"⟩])
      (.ok []) "PFB" "2MIN" "t").1.error = some (Tushare.invalidFreqMsg "2MIN") :=
  ⟨(c6_minute_invalid_freq_amended true .absent 0 (some [⟨"600000.SH", "600000", "PFB"⟩])
      (.ok []) "PFB" "2MIN" "t" (by decide)).1,
   (c6_minute_invalid_freq_amended true .absent 0 (some [⟨"600000.SH", "600000", "PFB"⟩])
      (.ok []) "PFB" "2MIN" "t" (by decide)).2.2.2 (by decide)⟩

/-- C6 counterexample: the claim as stated is false on the code.  With an
empty cache and a resolvable name, the invalid-frequency request still
makes one upstream `stock_basic` directory call before the frequency is
validated — "no upstream call made" does not hold. -/
theorem c6_minute_invalid_freq_counterexample :
    (Tushare.getMinuteByName true .absent 0 (some [⟨"600000.SH", "600000", "PFB"⟩])
      (.ok []) "PFB" "2MIN" "t").1.error = some (Tushare.invalidFreqMsg "2MIN") ∧
    (Tushare.getMinuteByName true .absent 0 (some [⟨"600000.SH", "600000", "PFB"⟩])
      (.ok []) "PFB" "2MIN" "t").2.1.basic = 1 := by
  decide

/-- C10: frequency validation is case-insensitive — every string whose
uppercase form is in `FREQ_OPTIONS` is accepted and normalized to that
uppercase form, so minute-bar requests with lowercase or mixed-case
frequencies pass validation and succeed; strings whose uppercase form is
outside the set are rejected with the `Invalid freq` error. -/
theorem c10_validate_freq_case_insensitive (freq : String) :
    (Tushare.strUpper freq ∈ Tushare.FREQ_OPTIONS →
      Tushare.validateFreq freq = .ok (Tushare.strUpper freq) ∧
      ∀ (disk : Tushare.CacheDisk) (now : Int)
        (stockApi : Option (List Tushare.StockEntry)) (rows : List Tushare.MinRow)
        (tsCodes nowStr : String),
        (Tushare.getRealtimeMinute true disk now stockApi (.ok rows)
          tsCodes freq nowStr).1.success = true) ∧
    (Tushare.strUpper freq ∉ Tushare.FREQ_OPTIONS →
      Tushare.validateFreq freq = .error (Tushare.invalidFreqMsg freq)) := by
  constructor
  · intro hmem
    have hval : Tushare.validateFreq freq = .ok (Tushare.strUpper freq) := by
      simp [Tushare.validateFreq, hmem]
    refine ⟨hval, ?_⟩
    intro disk now stockApi rows tsCodes nowStr
    cases rows with
    | nil => simp [Tushare.getRealtimeMinute, hval]
    | cons r rs => simp [Tushare.getRealtimeMinute, hval]
  · intro hmem
    simp [Tushare.validateFreq, hmem]

/-- C10 witness: the lowercase frequency `5min` is accepted, normalized
to `5MIN`, and a minute-bar request with it succeeds. -/
theorem c10_validate_freq_case_insensitive_witness :
    Tushare.validateFreq "5min" = .ok "5MIN" ∧
    (Tushare.getRealtimeMinute true .absent 0 none (.ok []) "600000.SH" "5min" "t").1.success = true :=
  ⟨((c10_validate_freq_case_insensitive "5min").1 (by decide)).1,
   ((c10_validate_freq_case_insensitive "5min").1 (by decide)).2 .absent 0 none [] "600000.SH" "t"⟩

namespace Tushare

/-- `TushareRealtimeService._get_realtime_tick` (tushare_realtime_service.py:423-506).
`api` — outcome of the upstream `ts.realtime_tick` call, with the rows
already taken through the null-coalescing record build (which itself
cannot fail), so the row type is abstract. -/
def getRealtimeTick {α : Type} (tsAvail proInit : Bool) (disk : CacheDisk) (now : Int)
    (stockApi : Option (List StockEntry)) (api : Except String (List α))
    (tsCode src nowStr : String) : Envelope (List α) × Calls × CacheDisk :=
  if !tsAvail then (failEnv "Tushare not available", {}, disk)
  else if tsCode.isEmpty then (failEnv "ts_code is required", {}, disk)
  else if tsCode.contains ',' then
    (failEnv "Only single stock code is supported for realtime_tick", {}, disk)
  else
    match api with
    | .error e => (failEnv e, { tick := 1 }, disk)
    | .ok [] =>
        ({ success := true, data := some [],
           metadata := some [("ts_code", .str tsCode), ("src", .str src),
             ("count", .int 0),
             ("message", .str "No data returned (market may be closed)")] },
         { tick := 1 }, disk)
    | .ok (r :: rs) =>
        let nm := getNamesByCodes proInit disk now stockApi [tsCode]
        ({ success := true, data := some (r :: rs),
           metadata := some [("ts_code", .str tsCode),
             ("name", .str ((nm.1.lookup tsCode).getD "")), ("src", .str src),
             ("count", .int (r :: rs).length), ("query_time", .str nowStr)] },
         { tick := 1, basic := nm.2.1 }, nm.2.2)

/-- `TushareRealtimeService.get_realtime_tick_by_name` (tushare_realtime_service.py:508-554). -/
def getRealtimeTickByName {α : Type} (tsAvail proInit : Bool) (disk : CacheDisk) (now : Int)
    (stockApi : Option (List StockEntry)) (api : Except String (List α))
    (stockName src nowStr : String) : Envelope (List α) × Calls × CacheDisk :=
  if stockName.isEmpty then (failEnv "stock_name is required", {}, disk)
  else
    let res := getStockBasic proInit disk now stockApi
    let m := resolveCodes res.1 [trimStr stockName]
    if m.isEmpty then
      (failEnv ("Could not find code for: " ++ stockName), { basic := res.2.1 }, res.2.2)
    else
      let code := (m.lookup (trimStr stockName)).getD ""
      let t := getRealtimeTick tsAvail proInit res.2.2 now stockApi api code src nowStr
      (t.1, { basic := res.2.1 + t.2.1.basic, tick := t.2.1.tick }, t.2.2)

/-- A ranking record: the cleaned row dictionary built at
tushare_realtime_service.py:630-640, restricted to its sortable numeric
columns (values are nullable numerics; a key that is absent from a row is
a pandas `NaN` in that row, i.e. `none` on lookup). -/
abbrev RankRec := List (String × Option ℚ)

/-- The value a row contributes to sorting by column `k`: `none` when the
key is absent or its value is null. -/
def fieldVal (r : RankRec) (k : String) : Option ℚ := (r.lookup k).join

/-- `sort_by in df.columns`: the column set of a frame built from record
dictionaries is the union of the record keys. -/
def hasColumn (l : List RankRec) (k : String) : Bool :=
  l.any (fun r => (r.lookup k).isSome)

/-- The key comparison performed by
`df.sort_values(by=sort_by, ascending=ascending, na_position='last')`:
null/missing keys sort after every present key, in both directions. -/
def sortLEb (asc : Bool) (k : String) (a b : RankRec) : Bool :=
  match fieldVal a k, fieldVal b k with
  | _, none => true
  | none, some _ => false
  | some x, some y => if asc then decide (x ≤ y) else decide (y ≤ x)

/-- The sort relation as a decidable proposition. -/
def sortLE (asc : Bool) (k : String) (a b : RankRec) : Prop := sortLEb asc k a b = true

instance sortLE.decRel (asc : Bool) (k : String) : DecidableRel (sortLE asc k) := by
  intro a b
  unfold sortLE
  infer_instance

instance sortLE.isTotal (asc : Bool) (k : String) : IsTotal RankRec (sortLE asc k) := by
  constructor
  intro a b
  simp only [sortLE, sortLEb]
  cases ha : fieldVal a k with
  | none =>
    cases hb : fieldVal b k with
    | none => left; rfl
    | some y => right; rfl
  | some x =>
    cases hb : fieldVal b k with
    | none => left; rfl
    | some y =>
      cases asc with
      | false =>
        rcases le_total y x with h | h
        · left; simpa using h
        · right; simpa using h
      | true =>
        rcases le_total x y with h | h
        · left; simpa using h
        · right; simpa using h

instance sortLE.isTrans (asc : Bool) (k : String) : IsTrans RankRec (sortLE asc k) := by
  constructor
  intro a b c hab hbc
  simp only [sortLE, sortLEb] at hab hbc ⊢
  cases hc : fieldVal c k with
  | none => cases hf : fieldVal a k <;> rfl
  | some z =>
    rw [hc] at hbc
    cases hb : fieldVal b k with
    | none => rw [hb] at hbc; exact absurd hbc (by simp)
    | some y =>
      rw [hb] at hab hbc
      cases ha : fieldVal a k with
      | none => rw [ha] at hab; exact absurd hab (by simp)
      | some x =>
        rw [ha] at hab
        cases asc with
        | false =>
          simp at hab hbc ⊢
          exact le_trans hbc hab
        | true =>
          simp at hab hbc ⊢
          exact le_trans hab hbc

/-- `TushareRealtimeService._get_realtime_list` (tushare_realtime_service.py:556-654):
fetch the whole-market frame and clean it into record dictionaries. -/
def getRealtimeList (tsAvail : Bool) (api : Except String (List RankRec))
    (src nowStr : String) : Envelope (List RankRec) × Nat :=
  if !tsAvail then (failEnv "Tushare not available", 0)
  else
    match api with
    | .error e => (failEnv e, 1)
    | .ok [] =>
        ({ success := true, data := some [],
           metadata := some [("src", .str src), ("count", .int 0),
             ("message", .str "No data returned (market may be closed)")] }, 1)
    | .ok (r :: rs) =>
        ({ success := true, data := some (r :: rs),
           metadata := some [("src", .str src), ("count", .int (r :: rs).length),
             ("query_time", .str nowStr)] }, 1)

/-- `TushareRealtimeService.get_realtime_list_top` (tushare_realtime_service.py:656-758):
fetch the full snapshot, sort by the requested column when it exists
(skipping the sort otherwise), and truncate to the first `topN` rows.
`pd.DataFrame.sort_values` is modelled by `List.insertionSort` over the
null-last key relation: it produces a permutation sorted by the key, and
the relative order of ties is not relied upon.  `topN` is the requested
record count (a natural number). -/
def getRealtimeListTop (tsAvail : Bool) (api : Except String (List RankRec))
    (src : String) (topN : Nat) (sortBy : String) (ascending : Bool)
    (nowStr : String) : Envelope (List RankRec) × Nat :=
  let r := getRealtimeList tsAvail api src nowStr
  if !r.1.success || (r.1.data.getD []).isEmpty then r
  else
    let l := r.1.data.getD []
    let sorted := if hasColumn l sortBy then List.insertionSort (sortLE ascending sortBy) l else l
    let top := sorted.take topN
    ({ success := true, data := some top,
       metadata := some [("src", .str src), ("top_n", .int topN), ("sort_by", .str sortBy),
         ("ascending", .bool ascending), ("count", .int top.length),
         ("total_stocks", .int l.length), ("query_time", .str nowStr)] }, r.2)

end Tushare

/-- Any prefix of the sorted permutation is itself sorted. -/
theorem sorted_take_insertionSort (asc : Bool) (k : String) (l : List Tushare.RankRec)
    (n : Nat) :
    List.Sorted (Tushare.sortLE asc k) ((List.insertionSort (Tushare.sortLE asc k) l).take n) :=
  List.Pairwise.sublist (List.take_sublist n _) (List.sorted_insertionSort _ _)

/-- C5: for every successful full-market snapshot, `get_realtime_list_top`
succeeds and returns at most `topN` records; when the requested sort
column is present in the data, the output is a prefix of a sorted
permutation of the snapshot under the requested direction with
null/missing keys last; when it is absent, the sort is skipped and the
unsorted data is truncated instead of erroring. -/
theorem c5_ranking_top_n (l : List Tushare.RankRec) (src sortBy nowStr : String)
    (topN : Nat) (ascending : Bool) :
    let r := Tushare.getRealtimeListTop true (.ok l) src topN sortBy ascending nowStr
    let out := r.1.data.getD []
    r.1.success = true ∧ r.1.data = some out ∧ out.length ≤ topN ∧
    (Tushare.hasColumn l sortBy = true →
      out = (List.insertionSort (Tushare.sortLE ascending sortBy) l).take topN ∧
      List.Sorted (Tushare.sortLE ascending sortBy) out ∧
      (List.insertionSort (Tushare.sortLE ascending sortBy) l).Perm l) ∧
    (Tushare.hasColumn l sortBy = false → out = l.take topN) := by
  cases l with
  | nil =>
    refine ⟨rfl, rfl, Nat.zero_le topN, ?_, ?_⟩
    · intro h
      rw [show Tushare.hasColumn [] sortBy = false from rfl] at h
      exact absurd h (by simp)
    · intro _
      exact (List.take_nil).symm
  | cons a t =>
    by_cases h : Tushare.hasColumn (a :: t) sortBy = true
    · refine ⟨rfl, rfl, ?_, fun _ => ⟨?_, ?_, List.perm_insertionSort _ _⟩,
        fun hf => absurd h (by simp [hf])⟩
      · exact List.length_take_le _ _
      · simp [Tushare.getRealtimeListTop, Tushare.getRealtimeList, h]
      · have hs := sorted_take_insertionSort ascending sortBy (a :: t) topN
        simpa [Tushare.getRealtimeListTop, Tushare.getRealtimeList, h] using hs
    · have hf : Tushare.hasColumn (a :: t) sortBy = false := by
        simpa using h
      refine ⟨rfl, rfl, ?_, fun ht => absurd ht h, fun _ => ?_⟩
      · exact List.length_take_le _ _
      · simp [Tushare.getRealtimeListTop, Tushare.getRealtimeList, hf]

/-- C5 witness: a two-row snapshot sorted descending by `pct_change` and
truncated to one record is sorted under the null-last relation. -/
theorem c5_ranking_top_n_witness :
    Tushare.hasColumn [[("pct_change", some (3 : ℚ))], [("pct_change", some 1)]] "pct_change" = true ∧
    List.Sorted (Tushare.sortLE false "pct_change")
      ((Tushare.getRealtimeListTop true
          (.ok [[("pct_change", some (3 : ℚ))], [("pct_change", some 1)]])
          "dc" 1 "pct_change" false "t").1.data.getD []) :=
  ⟨by decide,
   ((c5_ranking_top_n [[("pct_change", some (3 : ℚ))], [("pct_change", some 1)]]
      "dc" "pct_change" "t" 1 false).2.2.2.1 (by decide)).2.1⟩

namespace EnvInv

/-- `_format_response` populates `data` only on success, and its metadata
always starts with the query timestamp. -/
theorem formatResponse_ok {α : Type} (truthy : α → Bool) (dat : Option α)
    (meta : Metadata) (now : String) :
    ((Finnhub.formatResponse truthy dat meta now).data.isSome = true →
      (Finnhub.formatResponse truthy dat meta now).success = true) ∧
    ((Finnhub.formatResponse truthy dat meta now).metadata.getD []).lookup "query_time" =
      some (.str now) := by
  cases dat <;> simp [Finnhub.formatResponse, List.lookup]

/-- `_get_realtime_quote` populates `data` only on success. -/
theorem quote_ok {α : Type} (tsAvail : Bool) (api : Except String (List α))
    (tsCodes src nowStr : String) :
    (Tushare.getRealtimeQuote tsAvail api tsCodes src nowStr).1.data.isSome = true →
    (Tushare.getRealtimeQuote tsAvail api tsCodes src nowStr).1.success = true := by
  cases tsAvail with
  | false => simp [Tushare.getRealtimeQuote, failEnv]
  | true =>
    cases api with
    | error e => simp [Tushare.getRealtimeQuote, failEnv]
    | ok l => cases l <;> simp [Tushare.getRealtimeQuote]

/-- `get_realtime_by_name` populates `data` only on success. -/
theorem byName_ok {α : Type} (proInit tsAvail : Bool) (disk : Tushare.CacheDisk) (now : Int)
    (stockApi : Option (List Tushare.StockEntry)) (quoteApi : Except String (List α))
    (s nowStr : String) :
    (Tushare.getRealtimeByName proInit tsAvail disk now stockApi quoteApi s nowStr).1.data.isSome = true →
    (Tushare.getRealtimeByName proInit tsAvail disk now stockApi quoteApi s nowStr).1.success = true := by
  unfold Tushare.getRealtimeByName
  dsimp only
  split
  · simp [failEnv]
  · split
    · simp [failEnv]
    · split
      · simp [failEnv]
      · split
        · rename_i hcond
          intro _
          simp only [Tushare.addMeta]
          simp only [Bool.and_eq_true] at hcond
          exact hcond.2
        · exact quote_ok tsAvail quoteApi _ "sina" nowStr

/-- `_get_realtime_minute` populates `data` only on success. -/
theorem minute_ok (proInit : Bool) (disk : Tushare.CacheDisk) (now : Int)
    (stockApi : Option (List Tushare.StockEntry)) (rtMinApi : Except String (List Tushare.MinRow))
    (tsCodes freq nowStr : String) :
    (Tushare.getRealtimeMinute proInit disk now stockApi rtMinApi tsCodes freq nowStr).1.data.isSome = true →
    (Tushare.getRealtimeMinute proInit disk now stockApi rtMinApi tsCodes freq nowStr).1.success = true := by
  unfold Tushare.getRealtimeMinute
  split
  · simp [failEnv]
  · split
    · simp [failEnv]
    · split
      · simp [failEnv]
      · simp
      · simp

/-- `_get_minute_by_name` populates `data` only on success. -/
theorem minuteByName_ok (proInit : Bool) (disk : Tushare.CacheDisk) (now : Int)
    (stockApi : Option (List Tushare.StockEntry)) (rtMinApi : Except String (List Tushare.MinRow))
    (stockNames freq nowStr : String) :
    (Tushare.getMinuteByName proInit disk now stockApi rtMinApi stockNames freq nowStr).1.data.isSome = true →
    (Tushare.getMinuteByName proInit disk now stockApi rtMinApi stockNames freq nowStr).1.success = true := by
  unfold Tushare.getMinuteByName
  dsimp only
  split
  · simp [failEnv]
  · split
    · simp [failEnv]
    · split
      · simp [failEnv]
      · split
        · rename_i hcond
          intro _
          simp only [Tushare.addMeta]
          simp only [Bool.and_eq_true] at hcond
          exact hcond.2
        · exact minute_ok proInit _ now stockApi rtMinApi _ freq nowStr

/-- `_get_realtime_tick` populates `data` only on success. -/
theorem tick_ok {α : Type} (tsAvail proInit : Bool) (disk : Tushare.CacheDisk) (now : Int)
    (stockApi : Option (List Tushare.StockEntry)) (api : Except String (List α))
    (tsCode src nowStr : String) :
    (Tushare.getRealtimeTick tsAvail proInit disk now stockApi api tsCode src nowStr).1.data.isSome = true →
    (Tushare.getRealtimeTick tsAvail proInit disk now stockApi api tsCode src nowStr).1.success = true := by
  unfold Tushare.getRealtimeTick
  split
  · simp [failEnv]
  · split
    · simp [failEnv]
    · split
      · simp [failEnv]
      · split
        · simp [failEnv]
        · simp
        · simp

/-- `get_realtime_tick_by_name` populates `data` only on success. -/
theorem tickByName_ok {α : Type} (tsAvail proInit : Bool) (disk : Tushare.CacheDisk) (now : Int)
    (stockApi : Option (List Tushare.StockEntry)) (api : Except String (List α))
    (stockName src nowStr : String) :
    (Tushare.getRealtimeTickByName tsAvail proInit disk now stockApi api stockName src nowStr).1.data.isSome = true →
    (Tushare.getRealtimeTickByName tsAvail proInit disk now stockApi api stockName src nowStr).1.success = true := by
  unfold Tushare.getRealtimeTickByName
  dsimp only
  split
  · simp [failEnv]
  · split
    · simp [failEnv]
    · exact tick_ok tsAvail proInit _ now stockApi api _ src nowStr

/-- `_get_realtime_list` populates `data` only on success. -/
theorem list_ok (tsAvail : Bool) (api : Except String (List Tushare.RankRec))
    (src nowStr : String) :
    (Tushare.getRealtimeList tsAvail api src nowStr).1.data.isSome = true →
    (Tushare.getRealtimeList tsAvail api src nowStr).1.success = true := by
  cases tsAvail with
  | false => simp [Tushare.getRealtimeList, failEnv]
  | true =>
    cases api with
    | error e => simp [Tushare.getRealtimeList, failEnv]
    | ok l => cases l <;> simp [Tushare.getRealtimeList]

/-- `get_realtime_list_top` populates `data` only on success. -/
theorem listTop_ok (tsAvail : Bool) (api : Except String (List Tushare.RankRec))
    (src : String) (topN : Nat) (sortBy : String) (ascending : Bool) (nowStr : String) :
    (Tushare.getRealtimeListTop tsAvail api src topN sortBy ascending nowStr).1.data.isSome = true →
    (Tushare.getRealtimeListTop tsAvail api src topN sortBy ascending nowStr).1.success = true := by
  unfold Tushare.getRealtimeListTop
  dsimp only
  split
  · exact list_ok tsAvail api src nowStr
  · intro _
    rfl

end EnvInv

/-- C2 (amended): every modelled operation returns an envelope whose
`data` field is populated only when `success` is true; the Finnhub
`_format_response` wrapper (success or failure) always carries a metadata
mapping whose `query_time` key holds the query timestamp.  The original
claim's "metadata always carries a query timestamp" clause is false for
the Tushare service: its validation/failure envelopes carry no metadata
mapping at all (see the counterexample), and its empty-data envelopes
carry metadata without a `query_time` key. -/
theorem c2_envelope_invariant_amended :
    (∀ (α : Type) (truthy : α → Bool) (dat : Option α) (meta : Metadata) (now : String),
      ((Finnhub.formatResponse truthy dat meta now).data.isSome = true →
        (Finnhub.formatResponse truthy dat meta now).success = true) ∧
      ((Finnhub.formatResponse truthy dat meta now).metadata.getD []).lookup "query_time" =
        some (.str now)) ∧
    (∀ (α : Type) (proInit tsAvail : Bool) (disk : Tushare.CacheDisk) (now : Int)
      (stockApi : Option (List Tushare.StockEntry)) (quoteApi : Except String (List α))
      (s nowStr : String),
      (Tushare.getRealtimeByName proInit tsAvail disk now stockApi quoteApi s nowStr).1.data.isSome = true →
      (Tushare.getRealtimeByName proInit tsAvail disk now stockApi quoteApi s nowStr).1.success = true) ∧
    (∀ (proInit : Bool) (disk : Tushare.CacheDisk) (now : Int)
      (stockApi : Option (List Tushare.StockEntry)) (rtMinApi : Except String (List Tushare.MinRow))
      (stockNames freq nowStr : String),
      (Tushare.getMinuteByName proInit disk now stockApi rtMinApi stockNames freq nowStr).1.data.isSome = true →
      (Tushare.getMinuteByName proInit disk now stockApi rtMinApi stockNames freq nowStr).1.success = true) ∧
    (∀ (α : Type) (tsAvail proInit : Bool) (disk : Tushare.CacheDisk) (now : Int)
      (stockApi : Option (List Tushare.StockEntry)) (api : Except String (List α))
      (stockName src nowStr : String),
      (Tushare.getRealtimeTickByName tsAvail proInit disk now stockApi api stockName src nowStr).1.data.isSome = true →
      (Tushare.getRealtimeTickByName tsAvail proInit disk now stockApi api stockName src nowStr).1.success = true) ∧
    (∀ (tsAvail : Bool) (api : Except String (List Tushare.RankRec)) (src : String)
      (topN : Nat) (sortBy : String) (ascending : Bool) (nowStr : String),
      (Tushare.getRealtimeListTop tsAvail api src topN sortBy ascending nowStr).1.data.isSome = true →
      (Tushare.getRealtimeListTop tsAvail api src topN sortBy ascending nowStr).1.success = true) :=
  ⟨fun _ truthy dat meta now => EnvInv.formatResponse_ok truthy dat meta now,
   fun _ proInit tsAvail disk now stockApi quoteApi s nowStr =>
     EnvInv.byName_ok proInit tsAvail disk now stockApi quoteApi s nowStr,
   fun proInit disk now stockApi rtMinApi stockNames freq nowStr =>
     EnvInv.minuteByName_ok proInit disk now stockApi rtMinApi stockNames freq nowStr,
   fun _ tsAvail proInit disk now stockApi api stockName src nowStr =>
     EnvInv.tickByName_ok tsAvail proInit disk now stockApi api stockName src nowStr,
   fun tsAvail api src topN sortBy ascending nowStr =>
     EnvInv.listTop_ok tsAvail api src topN sortBy ascending nowStr⟩

/-- C2 witness: a populated success envelope and the query-time metadata
key, at concrete inputs. -/
theorem c2_envelope_invariant_amended_witness :
    (Finnhub.formatResponse (fun _ => true) (some (1 : Nat)) [] "2024-01-01 00:00:00").success = true ∧
    ((Finnhub.formatResponse (fun _ => true) (some (1 : Nat)) [] "2024-01-01 00:00:00").metadata.getD []).lookup "query_time" =
      some (.str "2024-01-01 00:00:00") :=
  ⟨(c2_envelope_invariant_amended.1 Nat (fun _ => true) (some 1) [] "2024-01-01 00:00:00").1
     (by decide),
   (c2_envelope_invariant_amended.1 Nat (fun _ => true) (some 1) [] "2024-01-01 00:00:00").2⟩

namespace Finnhub

/-- Numeric value of an ASCII digit character. -/
def dv (c : Char) : Nat := c.toNat - 48

/-- ASCII digit test (the `\d` of the strptime regex, restricted to the
ASCII digits that the callers use). -/
def isDig (c : Char) : Bool := decide (48 ≤ c.toNat ∧ c.toNat ≤ 57)

/-- Proleptic-Gregorian leap-year rule, as used by `datetime.date`. -/
def isLeap (y : Nat) : Bool := decide (y % 4 = 0 ∧ (y % 100 ≠ 0 ∨ y % 400 = 0))

/-- Days in a month of the proleptic Gregorian calendar. -/
def daysInMonth (y m : Nat) : Nat :=
  if m = 2 then (if isLeap y then 29 else 28)
  else if m = 4 ∨ m = 6 ∨ m = 9 ∨ m = 11 then 30
  else 31

/-- The validity check performed by the `datetime.datetime` constructor:
year in `MINYEAR..MAXYEAR`, month `1..12`, day within the month. -/
def isValidDate (y m d : Nat) : Bool :=
  decide (1 ≤ y ∧ y ≤ 9999 ∧ 1 ≤ m ∧ m ≤ 12 ∧ 1 ≤ d ∧ d ≤ daysInMonth y m)

/-- The `%m` field of `strptime`: regex `1[0-2]|0[1-9]|[1-9]` — one or
two digits; a two-digit token must be `01..12`, a single digit must be
`1..9` (the one-digit alternative can only fire when the next character
is not a digit, which makes the alternation deterministic). -/
def parseMonth : List Char → Option (Nat × List Char)
  | c1 :: c2 :: rest =>
    if isDig c1 ∧ isDig c2 then
      if (10 ≤ dv c1 * 10 + dv c2 ∧ dv c1 * 10 + dv c2 ≤ 12) ∨ (dv c1 = 0 ∧ 1 ≤ dv c2) then
        some (dv c1 * 10 + dv c2, rest)
      else none
    else if isDig c1 ∧ 1 ≤ dv c1 then some (dv c1, c2 :: rest)
    else none
  | [c1] => if isDig c1 ∧ 1 ≤ dv c1 then some (dv c1, []) else none
  | [] => none

/-- The `%d` field of `strptime`: regex `3[01]|[12]\d|0[1-9]|[1-9]` — one
or two digits; a two-digit token must be `01..31`, a single digit must be
`1..9`. -/
def parseDay : List Char → Option (Nat × List Char)
  | c1 :: c2 :: rest =>
    if isDig c1 ∧ isDig c2 then
      if (10 ≤ dv c1 * 10 + dv c2 ∧ dv c1 * 10 + dv c2 ≤ 31) ∨ (dv c1 = 0 ∧ 1 ≤ dv c2) then
        some (dv c1 * 10 + dv c2, rest)
      else none
    else if isDig c1 ∧ 1 ≤ dv c1 then some (dv c1, c2 :: rest)
    else none
  | [c1] => if isDig c1 ∧ 1 ≤ dv c1 then some (dv c1, []) else none
  | [] => none

/-- `datetime.datetime.strptime(date_str, "%Y-%m-%d")` followed by the
`datetime` constructor's range validation, on the character list.  The
`%Y` field is exactly four digits; the match must consume the entire
string ("unconverted data remains" otherwise); any failure raises
`ValueError`, modelled as `none`. -/
def parseDateL : List Char → Option (Nat × Nat × Nat)
  | y1 :: y2 :: y3 :: y4 :: '-' :: rest =>
    if isDig y1 ∧ isDig y2 ∧ isDig y3 ∧ isDig y4 then
      match parseMonth rest with
      | some (mo, rest2) =>
        match rest2 with
        | '-' :: rest3 =>
          match parseDay rest3 with
          | some (dy, rest4) =>
            if rest4 = [] ∧ isValidDate (dv y1 * 1000 + dv y2 * 100 + dv y3 * 10 + dv y4) mo dy
            then some (dv y1 * 1000 + dv y2 * 100 + dv y3 * 10 + dv y4, mo, dy)
            else none
          | none => none
        | _ => none
      | none => none
    else none
  | _ => none

/-- String-level `strptime("%Y-%m-%d")`. -/
def parseDate (s : String) : Option (Nat × Nat × Nat) := parseDateL s.data

/-- Days from 1970-01-01 to the given proleptic-Gregorian date (the
civil-from-days algorithm, era arithmetic on naturals). -/
def daysFromCivil (y m d : Nat) : Int :=
  let yy := if m ≤ 2 then y - 1 else y
  let era := yy / 400
  let yoe := yy % 400
  let mp := if 2 < m then m - 3 else m + 9
  let doy := (153 * mp + 2) / 5 + d - 1
  let doe := yoe * 365 + yoe / 4 - yoe / 100 + doy
  ((era * 146097 + doe : Nat) : Int) - 719468

/-- `int(dt.replace(tzinfo=utc).timestamp())` for the parsed date —
midnight UTC, or 23:59:59 when `end_of_day` is set. -/
def utcTimestamp (y m d : Nat) (endOfDay : Bool) : Int :=
  daysFromCivil y m d * 86400 + (if endOfDay then 86399 else 0)

/-- `FinnhubService._date_to_timestamp` (finnhub_service.py:48-62):
parse the date, return its UTC Unix timestamp; on `ValueError` log and
return `0`. -/
def dateToTimestamp (s : String) (endOfDay : Bool) : Int :=
  match parseDate s with
  | some (y, mo, dy) => utcTimestamp y mo dy endOfDay
  | none => 0

/-- The spec's notion of a well-formed calendar date "in YYYY-MM-DD
form": exactly ten characters, zero-padded four-digit year and two-digit
month and day, dashes in between, naming a valid calendar date. -/
def isStrictDateL : List Char → Bool
  | [a, b, c, d, e, f, g, h, i, j] =>
    isDig a && isDig b && isDig c && isDig d && (e == '-') &&
    isDig f && isDig g && (h == '-') && isDig i && isDig j &&
    isValidDate (dv a * 1000 + dv b * 100 + dv c * 10 + dv d)
      (dv f * 10 + dv g) (dv i * 10 + dv j)
  | _ => false

/-- String-level strict `YYYY-MM-DD` test. -/
def isStrictDate (s : String) : Bool := isStrictDateL s.data

/-- The year/month/day named by a strict `YYYY-MM-DD` character list. -/
def strictYMDL : List Char → Nat × Nat × Nat
  | [a, b, c, d, _, f, g, _, i, j] =>
    (dv a * 1000 + dv b * 100 + dv c * 10 + dv d, dv f * 10 + dv g, dv i * 10 + dv j)
  | _ => (0, 0, 0)

/-- The year/month/day named by a strict `YYYY-MM-DD` string. -/
def strictYMD (s : String) : Nat × Nat × Nat := strictYMDL s.data

/-- Sanity anchor: the epoch maps to timestamp 0. -/
theorem utcTimestamp_epoch : utcTimestamp 1970 1 1 false = 0 := by decide

/-- Sanity anchor: 2024-01-01 00:00:00 UTC is 1704067200. -/
theorem utcTimestamp_2024 : utcTimestamp 2024 1 1 false = 1704067200 := by decide

/-- Sanity anchor: 2024-02-29 exists (leap year) while 2023-02-29 does not. -/
theorem isValidDate_leap : isValidDate 2024 2 29 = true ∧ isValidDate 2023 2 29 = false := by
  decide

end Finnhub

namespace Finnhub

/-- An ASCII digit has value at most nine. -/
theorem dv_le_nine {c : Char} (h : isDig c = true) : dv c ≤ 9 := by
  simp only [isDig, decide_eq_true_eq] at h
  unfold dv
  omega

/-- Every month has at most 31 days. -/
theorem daysInMonth_le_31 (y m : Nat) : daysInMonth y m ≤ 31 := by
  unfold daysInMonth
  split_ifs <;> omega

/-- A strict `YYYY-MM-DD` character list is accepted by the strptime
model and parses to its digits. -/
theorem parseDateL_of_strict (cs : List Char) (h : isStrictDateL cs = true) :
    parseDateL cs = some (strictYMDL cs) := by
  rcases cs with _|⟨a, _|⟨b, _|⟨c, _|⟨d, _|⟨e, _|⟨f, _|⟨g, _|⟨h2, _|⟨i, _|⟨j, _|⟨k, rest⟩⟩⟩⟩⟩⟩⟩⟩⟩⟩⟩ <;>
    first
      | (revert h; simp [isStrictDateL]; done)
      | skip
  simp only [isStrictDateL, Bool.and_eq_true, beq_iff_eq] at h
  obtain ⟨⟨⟨⟨⟨⟨⟨⟨⟨⟨ha, hb⟩, hc⟩, hd⟩, he⟩, hf⟩, hg⟩, hh⟩, hi⟩, hj⟩, hval0⟩ := h
  subst he
  subst hh
  have hvp := hval0
  simp only [isValidDate, decide_eq_true_eq] at hvp
  obtain ⟨hy1, hy2, hm1, hm2, hd1, hd2⟩ := hvp
  have hgle := dv_le_nine hg
  have hjle := dv_le_nine hj
  have hdm := daysInMonth_le_31 (dv a * 1000 + dv b * 100 + dv c * 10 + dv d)
    (dv f * 10 + dv g)
  have hmonth : parseMonth [f, g, '-', i, j] = some (dv f * 10 + dv g, ['-', i, j]) := by
    simp only [parseMonth]
    rw [if_pos ⟨hf, hg⟩, if_pos (by omega)]
  have hday : parseDay [i, j] = some (dv i * 10 + dv j, []) := by
    simp only [parseDay]
    rw [if_pos ⟨hi, hj⟩, if_pos (by omega)]
  simp only [parseDateL, strictYMDL, hmonth, hday]
  rw [if_pos ⟨ha, hb, hc, hd⟩]
  simp [hval0]

end Finnhub

/-- C9 (amended): every string rejected by the `%Y-%m-%d` parse (exactly
four-digit year, one- or two-digit month and day, full-string match,
valid calendar date) makes `_date_to_timestamp` return 0 rather than
raise; and every well-formed zero-padded `YYYY-MM-DD` calendar date is
parsed to its components and converted to the corresponding UTC Unix
timestamp (23:59:59 of the day when `end_of_day` is true).  The original
claim is false in its "returns 0 on everything not in YYYY-MM-DD form"
direction: strptime's `%m`/`%d` accept non-zero-padded digits, so e.g.
`2026-1-5` converts to a real timestamp (see the counterexample). -/
theorem c9_date_to_timestamp_amended (s : String) (endOfDay : Bool) :
    (Finnhub.parseDate s = none → Finnhub.dateToTimestamp s endOfDay = 0) ∧
    (Finnhub.isStrictDate s = true →
      Finnhub.parseDate s = some (Finnhub.strictYMD s) ∧
      Finnhub.dateToTimestamp s endOfDay =
        Finnhub.utcTimestamp (Finnhub.strictYMD s).1 (Finnhub.strictYMD s).2.1
          (Finnhub.strictYMD s).2.2 endOfDay) := by
  constructor
  · intro h
    simp [Finnhub.dateToTimestamp, h]
  · intro hstrict
    have hL : Finnhub.parseDateL s.data = some (Finnhub.strictYMDL s.data) :=
      Finnhub.parseDateL_of_strict s.data hstrict
    refine ⟨hL, ?_⟩
    simp only [Finnhub.dateToTimestamp, Finnhub.parseDate, Finnhub.strictYMD, hL]

/-- C9 witness: a malformed string maps to 0; the strict date
`2026-01-05` (end of day) maps to its UTC timestamp. -/
theorem c9_date_to_timestamp_amended_witness :
    Finnhub.dateToTimestamp "not-a-date" true = 0 ∧
    Finnhub.dateToTimestamp "2026-01-05" true =
      Finnhub.utcTimestamp (Finnhub.strictYMD "2026-01-05").1
        (Finnhub.strictYMD "2026-01-05").2.1 (Finnhub.strictYMD "2026-01-05").2.2 true :=
  ⟨(c9_date_to_timestamp_amended "not-a-date" true).1 (by decide),
   ((c9_date_to_timestamp_amended "2026-01-05" true).2 (by decide)).2⟩

/-- C9 counterexample: the claim as stated is false on the code.  The
string `2026-1-5` is not in zero-padded `YYYY-MM-DD` form, yet
`_date_to_timestamp` returns the real timestamp 1767571200
(2026-01-05 00:00:00 UTC), not 0. -/
theorem c9_date_to_timestamp_counterexample :
    Finnhub.isStrictDate "2026-1-5" = false ∧
    Finnhub.dateToTimestamp "2026-1-5" false = 1767571200 ∧
    Finnhub.dateToTimestamp "2026-1-5" false ≠ 0 := by
  decide
